import Mathlib

/-!
Verification of the area grid-search core of the pharmacy-coverage
application, shallowly embedded from `src/services/pharmacy_service.py`
(the implementation used by the application via `main.py` / `pages.py`;
the standalone script `src/pharmacy_coverage.py` is a cacheless,
guardless variant of the same routine).

Modelling conventions:
* Python floats are embedded as exact rationals (`ℚ`); `np.cos` /
  `np.radians` are embedded over `ℝ` with `Real.cos`.
* The Google Places HTTP transport for one grid cell is abstracted by a
  `CellBehavior` value: either the finite list of pages the paginated
  transport delivers, or the pages delivered before a request fails
  (`requests.RequestException`), with a flag telling whether the failing
  request completed the HTTP exchange (`raise_for_status` error, counted
  in `request_count`) or the transport itself raised (not counted).
* The per-user in-memory cache (`st.session_state` in
  `_get_from_cache` / `_store_in_cache`) is explicit state threaded
  through the functions; the 24-hour expiration is real-time behaviour
  and is modelled as entries never being expired (all scenarios studied
  stay within the expiry window).  The cache key, a string formatting
  the coordinates with 6 decimal places, is modelled by rounding the
  two coordinates to 6 decimal places (ties rounded up).
* `st.error` / logging side effects are reflected as the `error` field
  of the result; the list of arguments of the `point_search` invocations
  performed is reflected as the `calls` field (the instrumentation
  needed to state "zero external calls" properties).
-/

/-- One found pharmacy, as built by `get_pharmacies_in_subarea`
(dict with keys name, address, latitude, longitude). -/
structure Place where
  name : String
  address : String
  latitude : ℚ
  longitude : ℚ
deriving DecidableEq

/-- One entry of the `places` array of an API response page, after JSON
field extraction (`displayName.text`, `location.latitude/longitude`,
`formattedAddress`); the optional fields are those the code defaults. -/
structure RawPlace where
  displayName : Option String
  latitude : ℚ
  longitude : ℚ
  formattedAddress : Option String
deriving DecidableEq

/-- Behaviour of the paginated transport for one cell:
`ok first rest` - the first request returns page `first` and each
element of `rest` is a further page reached through a `nextPageToken`
(so `1 + rest.length` requests are issued);
`fail pre counted` - the `pre` pages are delivered (each with a token),
then the next request fails: with `counted = true` the request completed
and `raise_for_status` raised (the request was already counted), with
`counted = false` `requests.post` itself raised (not counted). -/
inductive CellBehavior where
  | ok (first : List RawPlace) (rest : List (List RawPlace))
  | fail (pre : List (List RawPlace)) (counted : Bool)
deriving DecidableEq

/-- Whether the cell transport drains all pages without failing. -/
def CellBehavior.succeeds : CellBehavior → Bool
  | .ok _ _ => true
  | .fail _ _ => false

/-- Deduplication identity key: `(name, latitude, longitude)`
(lines 163 and 234 of `pharmacy_service.py`). -/
def placeKey (p : Place) : String × ℚ × ℚ :=
  (p.name, p.latitude, p.longitude)

/-- Parsing of one raw API entry (lines 117-131): default the name to
"Unknown" and the address to "", and skip the entry when the
coordinates are outside [-90, 90] × [-180, 180]. -/
def parsePlace (rp : RawPlace) : Option Place :=
  if -90 ≤ rp.latitude ∧ rp.latitude ≤ 90 ∧ -180 ≤ rp.longitude ∧ rp.longitude ≤ 180 then
    some ⟨rp.displayName.getD "Unknown", rp.formattedAddress.getD "", rp.latitude, rp.longitude⟩
  else
    none

/-- First-seen-wins deduplication by `placeKey`, parameterised by the
set (as a list) of keys already seen; this is the
`for p in list: if key not in seen: seen.add(key); out.append(p)`
pattern of lines 160-166 and 233-237. -/
def dedupBy (seen : List (String × ℚ × ℚ)) : List Place → List Place
  | [] => []
  | p :: rest =>
    if placeKey p ∈ seen then dedupBy seen rest
    else p :: dedupBy (placeKey p :: seen) rest

/-- The same deduplication pass written as the in-place accumulation the
area loop performs: `all`/`seen` are the running accumulator and seen
set, and the places of one cell are folded into them. -/
def dedupInto (all : List Place) (seen : List (String × ℚ × ℚ)) :
    List Place → List Place × List (String × ℚ × ℚ)
  | [] => (all, seen)
  | p :: rest =>
    if placeKey p ∈ seen then dedupInto all seen rest
    else dedupInto (all ++ [p]) (placeKey p :: seen) rest

/-- The per-user in-memory cache: association list from cache key to the
cached deduplicated place list (most recent binding first). -/
abbrev Cache : Type := List ((ℚ × ℚ × ℚ) × List Place)

/-- Rounding to 6 decimal places, modelling the fixed-point formatting
of the cache key f"pharmacy:{lat:.6f}:{lon:.6f}:{radius}". -/
def round6 (q : ℚ) : ℚ := (⌊q * 1000000 + 1 / 2⌋ : ℤ) / 1000000

/-- Cache key of a subarea query (line 86 of `pharmacy_service.py`). -/
def cacheKey (lat lon radius : ℚ) : ℚ × ℚ × ℚ := (round6 lat, round6 lon, radius)

/-- Lookup in the cache (the non-expired branch of `_get_from_cache`). -/
def cacheFind : Cache → (ℚ × ℚ × ℚ) → Option (List Place)
  | [], _ => none
  | (k, v) :: rest, k' => if k' = k then some v else cacheFind rest k'

/-- `PharmacyService.get_pharmacies_in_subarea`: check the cache (a hit
returns the cached list with 0 requests), otherwise drain the paginated
transport, parse and bound-check every entry, deduplicate within the
cell, store the result in the cache, and return it with the request
count; a `requests.RequestException` at any page yields the empty list
together with the requests already counted, and stores nothing. -/
def get_pharmacies_in_subarea (api : ℚ → ℚ → ℚ → CellBehavior) (cache : Cache)
    (lat lon radius : ℚ) : (List Place × ℕ) × Cache :=
  let k := cacheKey lat lon radius
  match cacheFind cache k with
  | some data => ((data, 0), cache)
  | none =>
    match api lat lon radius with
    | .ok first rest =>
      let parsed := (first ++ rest.flatten).filterMap parsePlace
      let uniq := dedupBy [] parsed
      ((uniq, 1 + rest.length), (k, uniq) :: cache)
    | .fail pre counted =>
      (([], pre.length + (if counted then 1 else 0)), cache)

/-- `np.arange(start, stop, step)`: the values `start + i * step` for
`i < ⌈(stop - start) / step⌉` (empty when the count is non-positive). -/
def arange (start stop step : ℚ) : List ℚ :=
  (List.range (⌈(stop - start) / step⌉).toNat).map (fun (i : ℕ) => start + (i : ℚ) * step)

/-- The lattice of cell centers: `itertools.product(lat_steps, lon_steps)`,
outer loop over latitudes, inner loop over longitudes. -/
def gridCenters (latMin latMax lonMin lonMax step : ℚ) : List (ℚ × ℚ) :=
  (arange latMin latMax step).flatMap
    (fun la => (arange lonMin lonMax step).map (fun lo => (la, lo)))

/-- The estimated area of the bounding box in km² (lines 209-210):
`((lat_max-lat_min)*111) * ((lon_max-lon_min)*111*cos(radians((lat_min+lat_max)/2)))`. -/
noncomputable def areaKm2 (latMin latMax lonMin lonMax : ℚ) : ℝ :=
  (((latMax : ℝ) - (latMin : ℝ)) * 111) *
    (((lonMax : ℝ) - (lonMin : ℝ)) * 111 *
      Real.cos ((((latMin : ℝ) + (latMax : ℝ)) / 2) * (Real.pi / 180)))

open Classical in
/-- The step actually used for the grid: capped at 0.005 when the
estimated area is below 1 km² (line 212). -/
noncomputable def adjStep (latMin latMax lonMin lonMax step : ℚ) : ℚ :=
  if areaKm2 latMin latMax lonMin lonMax < 1 then min step (1 / 200) else step

open Classical in
/-- The radius actually passed to the per-cell search: capped at 500
when the estimated area is below 1 km² (line 213). -/
noncomputable def adjRadius (latMin latMax lonMin lonMax radius : ℚ) : ℚ :=
  if areaKm2 latMin latMax lonMin lonMax < 1 then min radius 500 else radius

/-- The error outcomes of `get_pharmacies_in_area`, distinguished by the
`st.error` message they produce: out-of-range coordinates (line 199),
badly ordered bounds (line 205), and the caught exception of the cell
loop - with a total `point_search` the only such exception is
`np.arange`'s division error for a zero step (line 247). -/
inductive AreaError where
  | invalidCoords
  | invalidOrder
  | stepZero
deriving DecidableEq

/-- Observable outcome of one whole-area search: the deduplicated place
list, the total request count, the error signalled (if any), and the
argument list of the `point_search` invocations performed. -/
structure AreaOutcome where
  places : List Place
  totalRequests : ℕ
  error : Option AreaError
  calls : List (ℚ × ℚ × ℚ)
deriving DecidableEq

/-- Running state of the cell loop (lines 216-239): accumulated places,
seen keys, running request total, invocation log, and the state of the
injected point-search capability (the cache, for the real service). -/
structure LoopState (σ : Type) where
  all : List Place
  seen : List (String × ℚ × ℚ)
  total : ℕ
  calls : List (ℚ × ℚ × ℚ)
  s : σ

/-- The cell loop: invoke the capability on each center, add its request
count to the total, and merge its places into the accumulator with
first-seen-wins deduplication. -/
def runCells {σ : Type} (ps : σ → ℚ → ℚ → ℚ → (List Place × ℕ) × σ) (radius : ℚ) :
    LoopState σ → List (ℚ × ℚ) → LoopState σ
  | st, [] => st
  | st, c :: cs =>
    let r := ps st.s c.1 c.2 radius
    let d := dedupInto st.all st.seen r.1.1
    runCells ps radius ⟨d.1, d.2, st.total + r.1.2, st.calls ++ [(c.1, c.2, radius)], r.2⟩ cs

/-- The grid phase of `get_pharmacies_in_area`, after validation and
policy adjustment: build the lattice with the effective step and fold
the cell loop over it (a zero step is the caught `np.arange` exception,
returning the empty result with the current total of 0). -/
def areaRun {σ : Type} (ps : σ → ℚ → ℚ → ℚ → (List Place × ℕ) × σ) (s0 : σ)
    (latMin latMax lonMin lonMax step radius : ℚ) : AreaOutcome × σ :=
  if step = 0 then (⟨[], 0, some .stepZero, []⟩, s0)
  else
    let st := runCells ps radius ⟨[], [], 0, [], s0⟩
      (gridCenters latMin latMax lonMin lonMax step)
    (⟨st.all, st.total, none, st.calls⟩, st.s)

/-- `PharmacyService.get_pharmacies_in_area`: validate the coordinate
ranges, then the bound ordering, adjust the policy by estimated area,
and run the grid of per-cell searches. -/
noncomputable def get_pharmacies_in_area {σ : Type}
    (ps : σ → ℚ → ℚ → ℚ → (List Place × ℕ) × σ) (s0 : σ)
    (latMin latMax lonMin lonMax step radius : ℚ) : AreaOutcome × σ :=
  if ¬(-90 ≤ latMin ∧ latMin ≤ 90 ∧ -90 ≤ latMax ∧ latMax ≤ 90 ∧
      -180 ≤ lonMin ∧ lonMin ≤ 180 ∧ -180 ≤ lonMax ∧ lonMax ≤ 180) then
    (⟨[], 0, some .invalidCoords, []⟩, s0)
  else if latMin ≥ latMax ∨ lonMin ≥ lonMax then
    (⟨[], 0, some .invalidOrder, []⟩, s0)
  else
    areaRun ps s0 latMin latMax lonMin lonMax
      (adjStep latMin latMax lonMin lonMax step)
      (adjRadius latMin latMax lonMin lonMax radius)

/-- The sequence of `(places, request_count)` pairs the capability
returns along the cell loop, threading its state; this is the reference
list of per-cell results the claims quantify over. -/
def runOutputs {σ : Type} (ps : σ → ℚ → ℚ → ℚ → (List Place × ℕ) × σ) (radius : ℚ) :
    σ → List (ℚ × ℚ) → List (List Place × ℕ) × σ
  | s, [] => ([], s)
  | s, c :: cs =>
    let r := ps s c.1 c.2 radius
    let rest := runOutputs ps radius r.2 cs
    (r.1 :: rest.1, rest.2)

/-- The service's own point-search capability: `get_pharmacies_in_subarea`
over the session cache, as invoked by the area loop (line 231). -/
def subPS (api : ℚ → ℚ → ℚ → CellBehavior) :
    Cache → ℚ → ℚ → ℚ → (List Place × ℕ) × Cache :=
  fun cache lat lon radius => get_pharmacies_in_subarea api cache lat lon radius

/-- Cache extension: every binding visible in `c` is visible in `c'`.
During a run the cache only gains fresh keys, so it only grows in this
sense. -/
def cacheLe (c c' : Cache) : Prop :=
  ∀ k v, cacheFind c k = some v → cacheFind c' k = some v

/-- The coordinate-range invariant claimed of every returned place. -/
def inBounds (p : Place) : Prop :=
  -90 ≤ p.latitude ∧ p.latitude ≤ 90 ∧ -180 ≤ p.longitude ∧ p.longitude ≤ 180

/-- Every list stored in the cache satisfies the coordinate invariant. -/
def CacheBounded (c : Cache) : Prop :=
  ∀ k v, cacheFind c k = some v → ∀ p ∈ v, inBounds p

/-- A trivial pure point-search capability: no places, one request per
cell (used to observe the call log alone). -/
def psConst (s : Unit) (_ _ _ : ℚ) : (List Place × ℕ) × Unit := (([], 1), s)

/-- Two distinct places and a third sharing the identity key of the
first but differing in address. -/
def pA : Place := ⟨"Pharmacie A", "Rue 1", 1, 2⟩

def pB : Place := ⟨"Pharmacie B", "", 3, 4⟩

def pA2 : Place := ⟨"Pharmacie A", "Rue 2", 1, 2⟩

/-- A pure capability returning the same three places (one duplicate
key) for every cell, with 3 requests. -/
def psDup (s : Unit) (_ _ _ : ℚ) : (List Place × ℕ) × Unit := (([pA, pB, pA2], 3), s)

/-- Raw API entries used in concrete scenarios; `rpBad` has an
out-of-range latitude. -/
def rpA : RawPlace := ⟨some "Pharmacie A", 1, 2, some "Rue 1"⟩

def rpB : RawPlace := ⟨some "Pharmacie B", 3, 4, none⟩

def rpBad : RawPlace := ⟨some "Pharmacie X", 100, 0, none⟩

/-- Transport failing on every cell: HTTP error status on the first
request (counted by `request_count`). -/
def apiFail (_ _ _ : ℚ) : CellBehavior := .fail [] true

/-- Transport failing only at longitude 0, after one successful page
(transport error on the continuation request, not counted); other cells
succeed with a single page. -/
def apiC1 (_la lo _r : ℚ) : CellBehavior :=
  if lo = 0 then .fail [[rpA]] false else .ok [rpB] []

/-- Transport succeeding everywhere with one single-entry page. -/
def apiOk1 (_ _ _ : ℚ) : CellBehavior := .ok [rpA] []

/-- Transport returning one in-range and one out-of-range entry. -/
def apiBad (_ _ _ : ℚ) : CellBehavior := .ok [rpA, rpBad] []

theorem dedupBy_sublist (seen : List (String × ℚ × ℚ)) :
    ∀ l : List Place, (dedupBy seen l).Sublist l := by
  intro l
  induction l generalizing seen with
  | nil => simp [dedupBy]
  | cons p rest ih =>
    by_cases h : placeKey p ∈ seen
    · simpa [dedupBy, h] using (ih seen).cons p
    · simpa [dedupBy, h] using (ih (placeKey p :: seen)).cons₂ p

theorem mem_of_mem_dedupBy {seen : List (String × ℚ × ℚ)} {l : List Place} {p : Place}
    (hp : p ∈ dedupBy seen l) : p ∈ l :=
  (dedupBy_sublist seen l).mem hp

theorem dedupBy_not_mem_seen {seen : List (String × ℚ × ℚ)} {l : List Place} {p : Place}
    (hp : p ∈ dedupBy seen l) : placeKey p ∉ seen := by
  induction l generalizing seen with
  | nil => simp [dedupBy] at hp
  | cons q rest ih =>
    by_cases h : placeKey q ∈ seen
    · exact ih (by simpa [dedupBy, h] using hp)
    · rw [dedupBy, if_neg h] at hp
      rcases List.mem_cons.mp hp with rfl | hp'
      · exact h
      · intro hmem
        exact ih hp' (List.mem_cons_of_mem _ hmem)

theorem dedupBy_keys_nodup (seen : List (String × ℚ × ℚ)) :
    ∀ l : List Place, ((dedupBy seen l).map placeKey).Nodup := by
  intro l
  induction l generalizing seen with
  | nil => simp [dedupBy]
  | cons p rest ih =>
    by_cases h : placeKey p ∈ seen
    · simpa [dedupBy, h] using ih seen
    · rw [dedupBy, if_neg h]
      refine List.Nodup.cons ?_ (ih (placeKey p :: seen))
      intro hmem
      rcases List.mem_map.mp hmem with ⟨q, hq, hkey⟩
      exact dedupBy_not_mem_seen hq (by rw [hkey]; exact List.mem_cons_self _ _)

theorem dedupBy_key_mem (seen : List (String × ℚ × ℚ)) (l : List Place)
    (k : String × ℚ × ℚ) :
    k ∈ (dedupBy seen l).map placeKey ↔ k ∉ seen ∧ k ∈ l.map placeKey := by
  induction l generalizing seen with
  | nil => simp [dedupBy]
  | cons p rest ih =>
    by_cases h : placeKey p ∈ seen
    · rw [dedupBy, if_pos h, ih]
      simp only [List.map_cons, List.mem_cons]
      constructor
      · rintro ⟨hk, hmem⟩; exact ⟨hk, Or.inr hmem⟩
      · rintro ⟨hk, rfl | hmem⟩
        · exact absurd h hk
        · exact ⟨hk, hmem⟩
    · rw [dedupBy, if_neg h]
      rw [List.map_cons, List.mem_cons, ih, List.map_cons, List.mem_cons, List.mem_cons]
      constructor
      · rintro (rfl | ⟨hk, hmem⟩)
        · exact ⟨h, Or.inl rfl⟩
        · exact ⟨fun hs => hk (Or.inr hs), Or.inr hmem⟩
      · rintro ⟨hk, rfl | hmem⟩
        · exact Or.inl rfl
        · by_cases hkp : k = placeKey p
          · exact Or.inl hkp
          · exact Or.inr ⟨fun hs => hs.elim hkp hk, hmem⟩

theorem dedupBy_find_first {seen : List (String × ℚ × ℚ)} :
    ∀ {l : List Place} {p : Place}, p ∈ dedupBy seen l →
      l.find? (fun q => decide (placeKey q = placeKey p)) = some p := by
  intro l
  induction l generalizing seen with
  | nil => intro p hp; simp [dedupBy] at hp
  | cons q rest ih =>
    intro p hp
    by_cases h : placeKey q ∈ seen
    · rw [dedupBy, if_pos h] at hp
      have hne : placeKey q ≠ placeKey p := by
        intro he; exact dedupBy_not_mem_seen hp (he ▸ h)
      rw [List.find?_cons_of_neg _ (by simpa using hne)]
      exact ih hp
    · rw [dedupBy, if_neg h] at hp
      rcases List.mem_cons.mp hp with rfl | hp'
      · rw [List.find?_cons_of_pos _ (by simp)]
      · have hne : placeKey q ≠ placeKey p := by
          intro he
          exact dedupBy_not_mem_seen hp' (by rw [← he]; exact List.mem_cons_self _ _)
        rw [List.find?_cons_of_neg _ (by simpa using hne)]
        exact ih hp'

theorem dedupBy_seen_congr {s₁ s₂ : List (String × ℚ × ℚ)}
    (h : ∀ k, k ∈ s₁ ↔ k ∈ s₂) : ∀ l : List Place, dedupBy s₁ l = dedupBy s₂ l := by
  intro l
  induction l generalizing s₁ s₂ with
  | nil => simp [dedupBy]
  | cons p rest ih =>
    by_cases hp : placeKey p ∈ s₁
    · rw [dedupBy, if_pos hp, dedupBy, if_pos ((h _).mp hp)]
      exact ih h
    · rw [dedupBy, if_neg hp, dedupBy, if_neg (fun hm => hp ((h _).mpr hm))]
      refine congrArg _ (ih ?_)
      intro k
      simp only [List.mem_cons]
      exact or_congr Iff.rfl (h k)

theorem dedupBy_append (s : List (String × ℚ × ℚ)) (l₁ l₂ : List Place) :
    dedupBy s (l₁ ++ l₂) = dedupBy s l₁ ++ dedupBy (l₁.map placeKey ++ s) l₂ := by
  induction l₁ generalizing s with
  | nil => simp [dedupBy]
  | cons p rest ih =>
    by_cases h : placeKey p ∈ s
    · rw [List.cons_append, dedupBy, if_pos h, dedupBy, if_pos h, ih]
      refine congrArg _ (dedupBy_seen_congr ?_ _)
      intro k
      rw [List.mem_append, List.map_cons, List.mem_append, List.mem_cons]
      constructor
      · rintro (hk | hk); exacts [Or.inl (Or.inr hk), Or.inr hk]
      · rintro ((rfl | hk) | hk)
        exacts [Or.inr h, Or.inl hk, Or.inr hk]
    · rw [List.cons_append, dedupBy, if_neg h, dedupBy, if_neg h, ih, List.cons_append]
      refine congrArg _ (congrArg _ (dedupBy_seen_congr ?_ _))
      intro k
      simp only [List.map_cons, List.mem_append, List.mem_cons]
      tauto

theorem dedupInto_spec (l : List Place) :
    ∀ (all : List Place) (seen : List (String × ℚ × ℚ)),
      (dedupInto all seen l).1 = all ++ dedupBy seen l ∧
      ∀ k, (k ∈ (dedupInto all seen l).2 ↔ k ∈ seen ∨ k ∈ l.map placeKey) := by
  induction l with
  | nil => intro all seen; simp [dedupInto, dedupBy]
  | cons p rest ih =>
    intro all seen
    by_cases h : placeKey p ∈ seen
    · rw [dedupInto, if_pos h, dedupBy, if_pos h]
      refine ⟨(ih all seen).1, fun k => ?_⟩
      rw [(ih all seen).2 k]
      simp only [List.map_cons, List.mem_cons]
      constructor
      · rintro (hk | hk); exacts [Or.inl hk, Or.inr (Or.inr hk)]
      · rintro (hk | rfl | hk); exacts [Or.inl hk, Or.inl h, Or.inr hk]
    · rw [dedupInto, if_neg h, dedupBy, if_neg h]
      refine ⟨by rw [(ih _ _).1, List.append_assoc, List.singleton_append], fun k => ?_⟩
      rw [(ih _ _).2 k]
      simp only [List.mem_cons, List.map_cons]
      tauto

theorem arange_length (start stop step : ℚ) :
    (arange start stop step).length = (⌈(stop - start) / step⌉).toNat := by
  simp [arange]

theorem mem_arange {start stop step x : ℚ} (hs : 0 < step) :
    x ∈ arange start stop step ↔ ∃ i : ℕ, x = start + (i : ℚ) * step ∧ x < stop := by
  have hiff : ∀ i : ℕ, i < (⌈(stop - start) / step⌉).toNat ↔ start + (i : ℚ) * step < stop := by
    intro i
    rw [Int.lt_toNat, Int.lt_ceil]
    constructor
    · intro hi
      have : (i : ℚ) * step < stop - start := (lt_div_iff₀ hs).mp (by exact_mod_cast hi)
      linarith
    · intro hi
      have : (i : ℚ) * step < stop - start := by linarith
      exact_mod_cast (lt_div_iff₀ hs).mpr this
  simp only [arange, List.mem_map, List.mem_range]
  constructor
  · rintro ⟨i, hi, rfl⟩
    exact ⟨i, rfl, (hiff i).mp hi⟩
  · rintro ⟨i, rfl, hlt⟩
    exact ⟨i, (hiff i).mpr hlt, rfl⟩

theorem arange_nil_of_neg {start stop step : ℚ} (hstep : step < 0) (h : start < stop) :
    arange start stop step = [] := by
  have hq : (stop - start) / step < 0 :=
    div_neg_of_pos_of_neg (by linarith) hstep
  have hc : ⌈(stop - start) / step⌉ ≤ 0 := Int.ceil_le.mpr (by exact_mod_cast hq.le)
  simp [arange, Int.toNat_of_nonpos hc]

theorem arange_length_pos {start stop step : ℚ} (hs : 0 < step) (h : start < stop) :
    0 < (arange start stop step).length := by
  rw [arange_length]
  have hq : 0 < (stop - start) / step := div_pos (by linarith) hs
  have hc : 0 < ⌈(stop - start) / step⌉ := Int.ceil_pos.mpr hq
  omega

theorem length_flatMap_const {α β : Type} (l : List α) (f : α → List β) (n : ℕ)
    (h : ∀ a, (f a).length = n) : (l.flatMap f).length = l.length * n := by
  induction l with
  | nil => simp
  | cons a l ih => simp [List.flatMap_cons, ih, h a, Nat.succ_mul, Nat.add_comm]

theorem gridCenters_length (latMin latMax lonMin lonMax step : ℚ) :
    (gridCenters latMin latMax lonMin lonMax step).length =
      (⌈(latMax - latMin) / step⌉).toNat * (⌈(lonMax - lonMin) / step⌉).toNat := by
  rw [gridCenters,
    length_flatMap_const _ _ (arange lonMin lonMax step).length (fun a => List.length_map ..),
    arange_length, arange_length]

theorem mem_gridCenters {latMin latMax lonMin lonMax step la lo : ℚ} :
    (la, lo) ∈ gridCenters latMin latMax lonMin lonMax step ↔
      la ∈ arange latMin latMax step ∧ lo ∈ arange lonMin lonMax step := by
  rw [gridCenters, List.mem_flatMap]
  constructor
  · rintro ⟨a, ha, hmem⟩
    rcases List.mem_map.mp hmem with ⟨b, hb, heq⟩
    obtain ⟨rfl, rfl⟩ := Prod.mk.injEq .. ▸ heq
    exact ⟨ha, hb⟩
  · rintro ⟨ha, hb⟩
    exact ⟨la, ha, List.mem_map.mpr ⟨lo, hb, rfl⟩⟩

theorem runOutputs_length {σ : Type} (ps : σ → ℚ → ℚ → ℚ → (List Place × ℕ) × σ)
    (radius : ℚ) : ∀ (cs : List (ℚ × ℚ)) (s : σ),
    (runOutputs ps radius s cs).1.length = cs.length := by
  intro cs
  induction cs with
  | nil => intro s; rfl
  | cons c cs ih => intro s; simp [runOutputs, ih]

theorem runCells_s {σ : Type} (ps : σ → ℚ → ℚ → ℚ → (List Place × ℕ) × σ)
    (radius : ℚ) : ∀ (cs : List (ℚ × ℚ)) (st : LoopState σ),
    (runCells ps radius st cs).s = (runOutputs ps radius st.s cs).2 := by
  intro cs
  induction cs with
  | nil => intro st; rfl
  | cons c cs ih =>
    intro st
    exact ih ⟨(dedupInto st.all st.seen (ps st.s c.1 c.2 radius).1.1).1,
      (dedupInto st.all st.seen (ps st.s c.1 c.2 radius).1.1).2,
      st.total + (ps st.s c.1 c.2 radius).1.2,
      st.calls ++ [(c.1, c.2, radius)],
      (ps st.s c.1 c.2 radius).2⟩

theorem runCells_calls {σ : Type} (ps : σ → ℚ → ℚ → ℚ → (List Place × ℕ) × σ)
    (radius : ℚ) : ∀ (cs : List (ℚ × ℚ)) (st : LoopState σ),
    (runCells ps radius st cs).calls = st.calls ++ cs.map (fun c => (c.1, c.2, radius)) := by
  intro cs
  induction cs with
  | nil => intro st; simp [runCells]
  | cons c cs ih =>
    intro st
    have h := ih ⟨(dedupInto st.all st.seen (ps st.s c.1 c.2 radius).1.1).1,
      (dedupInto st.all st.seen (ps st.s c.1 c.2 radius).1.1).2,
      st.total + (ps st.s c.1 c.2 radius).1.2,
      st.calls ++ [(c.1, c.2, radius)],
      (ps st.s c.1 c.2 radius).2⟩
    rw [show runCells ps radius st (c :: cs) = runCells ps radius
      ⟨(dedupInto st.all st.seen (ps st.s c.1 c.2 radius).1.1).1,
       (dedupInto st.all st.seen (ps st.s c.1 c.2 radius).1.1).2,
       st.total + (ps st.s c.1 c.2 radius).1.2,
       st.calls ++ [(c.1, c.2, radius)],
       (ps st.s c.1 c.2 radius).2⟩ cs from rfl, h]
    simp

theorem runCells_total {σ : Type} (ps : σ → ℚ → ℚ → ℚ → (List Place × ℕ) × σ)
    (radius : ℚ) : ∀ (cs : List (ℚ × ℚ)) (st : LoopState σ),
    (runCells ps radius st cs).total
      = st.total + ((runOutputs ps radius st.s cs).1.map Prod.snd).sum := by
  intro cs
  induction cs with
  | nil => intro st; simp [runCells, runOutputs]
  | cons c cs ih =>
    intro st
    have h := ih ⟨(dedupInto st.all st.seen (ps st.s c.1 c.2 radius).1.1).1,
      (dedupInto st.all st.seen (ps st.s c.1 c.2 radius).1.1).2,
      st.total + (ps st.s c.1 c.2 radius).1.2,
      st.calls ++ [(c.1, c.2, radius)],
      (ps st.s c.1 c.2 radius).2⟩
    rw [show runCells ps radius st (c :: cs) = runCells ps radius
      ⟨(dedupInto st.all st.seen (ps st.s c.1 c.2 radius).1.1).1,
       (dedupInto st.all st.seen (ps st.s c.1 c.2 radius).1.1).2,
       st.total + (ps st.s c.1 c.2 radius).1.2,
       st.calls ++ [(c.1, c.2, radius)],
       (ps st.s c.1 c.2 radius).2⟩ cs from rfl, h,
      show (runOutputs ps radius st.s (c :: cs)).1
        = (ps st.s c.1 c.2 radius).1 ::
            (runOutputs ps radius (ps st.s c.1 c.2 radius).2 cs).1 from rfl]
    simp [Nat.add_assoc]

theorem runCells_all {σ : Type} (ps : σ → ℚ → ℚ → ℚ → (List Place × ℕ) × σ)
    (radius : ℚ) : ∀ (cs : List (ℚ × ℚ)) (st : LoopState σ),
    (runCells ps radius st cs).all
      = st.all ++ dedupBy st.seen ((runOutputs ps radius st.s cs).1.map Prod.fst).flatten := by
  intro cs
  induction cs with
  | nil => intro st; simp [runCells, runOutputs, dedupBy]
  | cons c cs ih =>
    intro st
    obtain ⟨hd1, hd2⟩ := dedupInto_spec (ps st.s c.1 c.2 radius).1.1 st.all st.seen
    have h := ih ⟨(dedupInto st.all st.seen (ps st.s c.1 c.2 radius).1.1).1,
      (dedupInto st.all st.seen (ps st.s c.1 c.2 radius).1.1).2,
      st.total + (ps st.s c.1 c.2 radius).1.2,
      st.calls ++ [(c.1, c.2, radius)],
      (ps st.s c.1 c.2 radius).2⟩
    rw [show runCells ps radius st (c :: cs) = runCells ps radius
      ⟨(dedupInto st.all st.seen (ps st.s c.1 c.2 radius).1.1).1,
       (dedupInto st.all st.seen (ps st.s c.1 c.2 radius).1.1).2,
       st.total + (ps st.s c.1 c.2 radius).1.2,
       st.calls ++ [(c.1, c.2, radius)],
       (ps st.s c.1 c.2 radius).2⟩ cs from rfl, h,
      show (runOutputs ps radius st.s (c :: cs)).1
        = (ps st.s c.1 c.2 radius).1 ::
            (runOutputs ps radius (ps st.s c.1 c.2 radius).2 cs).1 from rfl]
    simp only [hd1, List.map_cons, List.flatten_cons]
    rw [dedupBy_append, List.append_assoc]
    refine congrArg _ (congrArg _ (dedupBy_seen_congr ?_ _))
    intro k
    rw [hd2 k, List.mem_append, or_comm]

theorem areaRun_spec {σ : Type} (ps : σ → ℚ → ℚ → ℚ → (List Place × ℕ) × σ) (s0 : σ)
    (latMin latMax lonMin lonMax step radius : ℚ) (hstep : step ≠ 0) :
    areaRun ps s0 latMin latMax lonMin lonMax step radius =
      (⟨dedupBy []
          ((runOutputs ps radius s0 (gridCenters latMin latMax lonMin lonMax step)).1.map
              Prod.fst).flatten,
        ((runOutputs ps radius s0 (gridCenters latMin latMax lonMin lonMax step)).1.map
            Prod.snd).sum,
        none,
        (gridCenters latMin latMax lonMin lonMax step).map (fun c => (c.1, c.2, radius))⟩,
       (runOutputs ps radius s0 (gridCenters latMin latMax lonMin lonMax step)).2) := by
  rw [areaRun, if_neg hstep]
  have h1 := runCells_all ps radius (gridCenters latMin latMax lonMin lonMax step)
    ⟨[], [], 0, [], s0⟩
  have h2 := runCells_total ps radius (gridCenters latMin latMax lonMin lonMax step)
    ⟨[], [], 0, [], s0⟩
  have h3 := runCells_calls ps radius (gridCenters latMin latMax lonMin lonMax step)
    ⟨[], [], 0, [], s0⟩
  have h4 := runCells_s ps radius (gridCenters latMin latMax lonMin lonMax step)
    ⟨[], [], 0, [], s0⟩
  simp only [show (⟨[], [], 0, [], s0⟩ : LoopState σ).all = [] from rfl,
    show (⟨[], [], 0, [], s0⟩ : LoopState σ).seen = [] from rfl,
    show (⟨[], [], 0, [], s0⟩ : LoopState σ).total = 0 from rfl,
    show (⟨[], [], 0, [], s0⟩ : LoopState σ).calls = ([] : List (ℚ × ℚ × ℚ)) from rfl,
    show (⟨[], [], 0, [], s0⟩ : LoopState σ).s = s0 from rfl,
    List.nil_append, Nat.zero_add] at h1 h2 h3 h4
  rw [Prod.mk.injEq]
  refine ⟨?_, h4⟩
  rw [AreaOutcome.mk.injEq]
  exact ⟨h1, h2, rfl, h3⟩

theorem area_eq_areaRun {σ : Type} (ps : σ → ℚ → ℚ → ℚ → (List Place × ℕ) × σ) (s0 : σ)
    (latMin latMax lonMin lonMax step radius : ℚ)
    (hc : -90 ≤ latMin ∧ latMin ≤ 90 ∧ -90 ≤ latMax ∧ latMax ≤ 90 ∧
      -180 ≤ lonMin ∧ lonMin ≤ 180 ∧ -180 ≤ lonMax ∧ lonMax ≤ 180)
    (ho : latMin < latMax ∧ lonMin < lonMax) :
    get_pharmacies_in_area ps s0 latMin latMax lonMin lonMax step radius =
      areaRun ps s0 latMin latMax lonMin lonMax
        (adjStep latMin latMax lonMin lonMax step)
        (adjRadius latMin latMax lonMin lonMax radius) := by
  rw [get_pharmacies_in_area, if_neg (not_not.mpr hc), if_neg]
  push_neg
  exact ⟨ho.1, ho.2⟩

theorem adjStep_of_one_le {latMin latMax lonMin lonMax step : ℚ}
    (h : 1 ≤ areaKm2 latMin latMax lonMin lonMax) :
    adjStep latMin latMax lonMin lonMax step = step := by
  rw [adjStep, if_neg (not_lt.mpr h)]

theorem adjStep_of_lt_one {latMin latMax lonMin lonMax step : ℚ}
    (h : areaKm2 latMin latMax lonMin lonMax < 1) :
    adjStep latMin latMax lonMin lonMax step = min step (1 / 200) := by
  rw [adjStep, if_pos h]

theorem adjStep_of_le {latMin latMax lonMin lonMax step : ℚ} (hs : step ≤ 1 / 200) :
    adjStep latMin latMax lonMin lonMax step = step := by
  rw [adjStep]
  split
  · exact min_eq_left hs
  · rfl

theorem adjStep_pos {latMin latMax lonMin lonMax step : ℚ} (hs : 0 < step) :
    0 < adjStep latMin latMax lonMin lonMax step := by
  rw [adjStep]
  split
  · exact lt_min hs (by norm_num)
  · exact hs

theorem adjRadius_of_one_le {latMin latMax lonMin lonMax radius : ℚ}
    (h : 1 ≤ areaKm2 latMin latMax lonMin lonMax) :
    adjRadius latMin latMax lonMin lonMax radius = radius := by
  rw [adjRadius, if_neg (not_lt.mpr h)]

theorem adjRadius_of_lt_one {latMin latMax lonMin lonMax radius : ℚ}
    (h : areaKm2 latMin latMax lonMin lonMax < 1) :
    adjRadius latMin latMax lonMin lonMax radius = min radius 500 := by
  rw [adjRadius, if_pos h]

theorem adjRadius_le_self {latMin latMax lonMin lonMax radius : ℚ} :
    adjRadius latMin latMax lonMin lonMax radius ≤ radius := by
  rw [adjRadius]
  split
  · exact min_le_left _ _
  · exact le_rfl

theorem cacheLe_refl (c : Cache) : cacheLe c c := fun _ _ h => h

theorem cacheLe_trans {c₁ c₂ c₃ : Cache} (h₁ : cacheLe c₁ c₂) (h₂ : cacheLe c₂ c₃) :
    cacheLe c₁ c₃ := fun k v h => h₂ k v (h₁ k v h)

theorem sub_hit {api : ℚ → ℚ → ℚ → CellBehavior} {cache : Cache} {lat lon radius : ℚ}
    {v : List Place} (h : cacheFind cache (cacheKey lat lon radius) = some v) :
    get_pharmacies_in_subarea api cache lat lon radius = ((v, 0), cache) := by
  simp [get_pharmacies_in_subarea, h]

theorem sub_miss_ok {api : ℚ → ℚ → ℚ → CellBehavior} {cache : Cache} {lat lon radius : ℚ}
    {first : List RawPlace} {rest : List (List RawPlace)}
    (h : cacheFind cache (cacheKey lat lon radius) = none)
    (ha : api lat lon radius = .ok first rest) :
    get_pharmacies_in_subarea api cache lat lon radius =
      ((dedupBy [] ((first ++ rest.flatten).filterMap parsePlace), 1 + rest.length),
       (cacheKey lat lon radius,
         dedupBy [] ((first ++ rest.flatten).filterMap parsePlace)) :: cache) := by
  simp [get_pharmacies_in_subarea, h, ha]

theorem sub_miss_fail {api : ℚ → ℚ → ℚ → CellBehavior} {cache : Cache} {lat lon radius : ℚ}
    {pre : List (List RawPlace)} {counted : Bool}
    (h : cacheFind cache (cacheKey lat lon radius) = none)
    (ha : api lat lon radius = .fail pre counted) :
    get_pharmacies_in_subarea api cache lat lon radius =
      (([], pre.length + (if counted then 1 else 0)), cache) := by
  simp [get_pharmacies_in_subarea, h, ha]

theorem sub_cacheLe (api : ℚ → ℚ → ℚ → CellBehavior) (cache : Cache) (lat lon radius : ℚ) :
    cacheLe cache (get_pharmacies_in_subarea api cache lat lon radius).2 := by
  rcases h : cacheFind cache (cacheKey lat lon radius) with _ | v
  · rcases ha : api lat lon radius with ⟨first, rest⟩ | ⟨pre, counted⟩
    · rw [sub_miss_ok h ha]
      intro k v hv
      have hk : k ≠ cacheKey lat lon radius := by
        intro he; rw [he, h] at hv; exact Option.noConfusion hv
      simpa [cacheFind, hk] using hv
    · rw [sub_miss_fail h ha]
      exact cacheLe_refl cache
  · rw [sub_hit h]
    exact cacheLe_refl cache

theorem sub_result_cached {api : ℚ → ℚ → ℚ → CellBehavior} {cache : Cache}
    {lat lon radius : ℚ} (hok : (api lat lon radius).succeeds = true) :
    cacheFind (get_pharmacies_in_subarea api cache lat lon radius).2
        (cacheKey lat lon radius)
      = some (get_pharmacies_in_subarea api cache lat lon radius).1.1 := by
  rcases h : cacheFind cache (cacheKey lat lon radius) with _ | v
  · rcases ha : api lat lon radius with ⟨first, rest⟩ | ⟨pre, counted⟩
    · rw [sub_miss_ok h ha]
      simp [cacheFind]
    · rw [ha] at hok
      exact Bool.noConfusion hok
  · rw [sub_hit h]
    exact h

theorem runOutputs_cacheLe (api : ℚ → ℚ → ℚ → CellBehavior) (radius : ℚ) :
    ∀ (cs : List (ℚ × ℚ)) (cache : Cache),
    cacheLe cache (runOutputs (subPS api) radius cache cs).2 := by
  intro cs
  induction cs with
  | nil => intro cache; exact cacheLe_refl cache
  | cons c cs ih =>
    intro cache
    exact cacheLe_trans (sub_cacheLe api cache c.1 c.2 radius)
      (ih (get_pharmacies_in_subarea api cache c.1 c.2 radius).2)

/-- Re-running the same cell list from the cache a first run produced:
when every transport call succeeds, the second run returns cell for cell
the same place lists with request count 0 (pure cache hits) and leaves
the cache unchanged. -/
theorem runOutputs_rerun {api : ℚ → ℚ → ℚ → CellBehavior} {radius : ℚ}
    (hok : ∀ la lo r, (api la lo r).succeeds = true) :
    ∀ (cs : List (ℚ × ℚ)) (cache : Cache),
    runOutputs (subPS api) radius (runOutputs (subPS api) radius cache cs).2 cs
      = ((runOutputs (subPS api) radius cache cs).1.map (fun o => (o.1, 0)),
         (runOutputs (subPS api) radius cache cs).2) := by
  intro cs
  induction cs with
  | nil => intro cache; rfl
  | cons c cs ih =>
    intro cache
    have hr1 : runOutputs (subPS api) radius cache (c :: cs)
        = ((get_pharmacies_in_subarea api cache c.1 c.2 radius).1 ::
            (runOutputs (subPS api) radius
              (get_pharmacies_in_subarea api cache c.1 c.2 radius).2 cs).1,
           (runOutputs (subPS api) radius
              (get_pharmacies_in_subarea api cache c.1 c.2 radius).2 cs).2) := rfl
    have hcached : cacheFind (runOutputs (subPS api) radius
          (get_pharmacies_in_subarea api cache c.1 c.2 radius).2 cs).2
          (cacheKey c.1 c.2 radius)
        = some (get_pharmacies_in_subarea api cache c.1 c.2 radius).1.1 :=
      runOutputs_cacheLe api radius cs
          (get_pharmacies_in_subarea api cache c.1 c.2 radius).2 _ _
        (sub_result_cached (hok c.1 c.2 radius))
    have hfirst : get_pharmacies_in_subarea api
        (runOutputs (subPS api) radius
          (get_pharmacies_in_subarea api cache c.1 c.2 radius).2 cs).2 c.1 c.2 radius
        = (((get_pharmacies_in_subarea api cache c.1 c.2 radius).1.1, 0),
           (runOutputs (subPS api) radius
             (get_pharmacies_in_subarea api cache c.1 c.2 radius).2 cs).2) :=
      sub_hit hcached
    rw [hr1]
    show ((get_pharmacies_in_subarea api _ c.1 c.2 radius).1 ::
        (runOutputs (subPS api) radius (get_pharmacies_in_subarea api _ c.1 c.2 radius).2 cs).1,
      (runOutputs (subPS api) radius (get_pharmacies_in_subarea api _ c.1 c.2 radius).2 cs).2) = _
    rw [hfirst]
    simp only [ih (get_pharmacies_in_subarea api cache c.1 c.2 radius).2, List.map_cons]

theorem cos_ge_half {x : ℝ} (h0 : 0 ≤ x) (h1 : x ≤ 1 / 2) :
    (1 / 2 : ℝ) ≤ Real.cos x := by
  have h := @Real.one_sub_sq_div_two_le_cos x
  nlinarith

theorem one_le_areaKm2_two_sq : (1 : ℝ) ≤ areaKm2 0 2 0 2 := by
  rw [areaKm2]
  push_cast
  have hpi0 : (0 : ℝ) ≤ Real.pi := Real.pi_pos.le
  have hpi4 : Real.pi ≤ 4 := Real.pi_le_four
  have hcos : (1 / 2 : ℝ) ≤ Real.cos ((0 + 2) / 2 * (Real.pi / 180)) := by
    refine cos_ge_half (by positivity) ?_
    linarith
  nlinarith

theorem one_le_areaKm2_two_four : (1 : ℝ) ≤ areaKm2 0 2 0 4 := by
  rw [areaKm2]
  push_cast
  have hpi0 : (0 : ℝ) ≤ Real.pi := Real.pi_pos.le
  have hpi4 : Real.pi ≤ 4 := Real.pi_le_four
  have hcos : (1 / 2 : ℝ) ≤ Real.cos ((0 + 2) / 2 * (Real.pi / 180)) := by
    refine cos_ge_half (by positivity) ?_
    linarith
  nlinarith

theorem areaKm2_small_lt_one : areaKm2 0 (1 / 125) 0 (1 / 125) < 1 := by
  rw [areaKm2]
  push_cast
  have hcos : Real.cos ((0 + 1 / 125) / 2 * (Real.pi / 180)) ≤ 1 :=
    Real.cos_le_one _
  nlinarith

theorem parsePlace_inBounds {rp : RawPlace} {p : Place} (h : parsePlace rp = some p) :
    inBounds p := by
  rw [parsePlace] at h
  split at h
  · cases h
    exact ‹_ ∧ _ ∧ _ ∧ _›
  · exact Option.noConfusion h

theorem sub_inBounds {api : ℚ → ℚ → ℚ → CellBehavior} {cache : Cache}
    {lat lon radius : ℚ} (h : CacheBounded cache) :
    (∀ p ∈ (get_pharmacies_in_subarea api cache lat lon radius).1.1, inBounds p) ∧
    CacheBounded (get_pharmacies_in_subarea api cache lat lon radius).2 := by
  rcases hc : cacheFind cache (cacheKey lat lon radius) with _ | v
  · rcases ha : api lat lon radius with ⟨first, rest⟩ | ⟨pre, counted⟩
    · rw [sub_miss_ok hc ha]
      have hparsed : ∀ p ∈ dedupBy [] ((first ++ rest.flatten).filterMap parsePlace),
          inBounds p := by
        intro p hp
        rcases List.mem_filterMap.mp (mem_of_mem_dedupBy hp) with ⟨rp, _, hrp⟩
        exact parsePlace_inBounds hrp
      refine ⟨hparsed, ?_⟩
      intro k v hv q hq
      by_cases hk : k = cacheKey lat lon radius
      · rw [hk] at hv
        simp only [cacheFind, if_pos rfl] at hv
        cases hv
        exact hparsed q hq
      · simp only [cacheFind, if_neg hk] at hv
        exact h k v hv q hq
    · rw [sub_miss_fail hc ha]
      exact ⟨fun p hp => absurd hp (List.not_mem_nil p), h⟩
  · rw [sub_hit hc]
    exact ⟨h _ v hc, h⟩

theorem runOutputs_inBounds {api : ℚ → ℚ → ℚ → CellBehavior} {radius : ℚ} :
    ∀ {cs : List (ℚ × ℚ)} {cache : Cache}, CacheBounded cache →
    (∀ o ∈ (runOutputs (subPS api) radius cache cs).1, ∀ p ∈ o.1, inBounds p) ∧
    CacheBounded (runOutputs (subPS api) radius cache cs).2 := by
  intro cs
  induction cs with
  | nil => intro cache h; exact ⟨fun o ho => absurd ho (List.not_mem_nil o), h⟩
  | cons c cs ih =>
    intro cache h
    obtain ⟨h1, h2⟩ := @sub_inBounds api cache c.1 c.2 radius h
    obtain ⟨ih1, ih2⟩ := ih h2
    refine ⟨?_, ih2⟩
    intro o ho
    rcases List.mem_cons.mp ho with rfl | ho'
    · exact h1
    · exact ih1 o ho'

/-- C5: for every bounding box with `lat_min ≥ lat_max` or
`lon_min ≥ lon_max`, the area search fails before issuing any external
call: the invocation log is empty, the result is empty with a zero
request total, an error is signalled, and - when the coordinates are
within range so that the ordering guard is the one that fires - the
error is precisely the invalid-ordering error. -/
theorem C5_invalid_region_zero_calls {σ : Type}
    (ps : σ → ℚ → ℚ → ℚ → (List Place × ℕ) × σ) (s0 : σ)
    (latMin latMax lonMin lonMax step radius : ℚ)
    (h : latMin ≥ latMax ∨ lonMin ≥ lonMax) :
    (get_pharmacies_in_area ps s0 latMin latMax lonMin lonMax step radius).1.calls = [] ∧
    (get_pharmacies_in_area ps s0 latMin latMax lonMin lonMax step radius).1.places = [] ∧
    (get_pharmacies_in_area ps s0 latMin latMax lonMin lonMax step radius).1.totalRequests
      = 0 ∧
    (get_pharmacies_in_area ps s0 latMin latMax lonMin lonMax step radius).1.error.isSome
      = true ∧
    ((-90 ≤ latMin ∧ latMin ≤ 90 ∧ -90 ≤ latMax ∧ latMax ≤ 90 ∧
        -180 ≤ lonMin ∧ lonMin ≤ 180 ∧ -180 ≤ lonMax ∧ lonMax ≤ 180) →
      (get_pharmacies_in_area ps s0 latMin latMax lonMin lonMax step radius).1.error
        = some AreaError.invalidOrder) := by
  by_cases hc : -90 ≤ latMin ∧ latMin ≤ 90 ∧ -90 ≤ latMax ∧ latMax ≤ 90 ∧
      -180 ≤ lonMin ∧ lonMin ≤ 180 ∧ -180 ≤ lonMax ∧ lonMax ≤ 180
  · rw [get_pharmacies_in_area, if_neg (not_not.mpr hc), if_pos h]
    exact ⟨rfl, rfl, rfl, rfl, fun _ => rfl⟩
  · rw [get_pharmacies_in_area, if_pos hc]
    exact ⟨rfl, rfl, rfl, rfl, fun hco => absurd hco hc⟩

/-- C5 witness: the degenerate box with `lat_min = lat_max = 0` issues
zero calls and signals the invalid-ordering error. -/
theorem C5_invalid_region_zero_calls_witness :
    ((0 : ℚ) ≥ 0 ∨ (0 : ℚ) ≥ 1) ∧
    ((get_pharmacies_in_area psConst () 0 0 0 1 (1 / 100) 1000).1.calls = [] ∧
     (get_pharmacies_in_area psConst () 0 0 0 1 (1 / 100) 1000).1.places = [] ∧
     (get_pharmacies_in_area psConst () 0 0 0 1 (1 / 100) 1000).1.totalRequests = 0 ∧
     (get_pharmacies_in_area psConst () 0 0 0 1 (1 / 100) 1000).1.error.isSome = true ∧
     ((-90 ≤ (0 : ℚ) ∧ (0 : ℚ) ≤ 90 ∧ -90 ≤ (0 : ℚ) ∧ (0 : ℚ) ≤ 90 ∧
         -180 ≤ (0 : ℚ) ∧ (0 : ℚ) ≤ 180 ∧ -180 ≤ (1 : ℚ) ∧ (1 : ℚ) ≤ 180) →
       (get_pharmacies_in_area psConst () 0 0 0 1 (1 / 100) 1000).1.error
         = some AreaError.invalidOrder)) :=
  ⟨Or.inl le_rfl,
   C5_invalid_region_zero_calls psConst () 0 0 0 1 (1 / 100) 1000 (Or.inl le_rfl)⟩

/-- C9: whenever the estimated area of a valid bounding box is below
1 km², the area search silently builds its grid with the step capped at
0.005 and invokes the point search with the radius capped at 500: the
invocation log is exactly the lattice computed from `min step 0.005`,
each call carrying `min radius 500`. -/
theorem C9_small_area_policy_override {σ : Type}
    (ps : σ → ℚ → ℚ → ℚ → (List Place × ℕ) × σ) (s0 : σ)
    (latMin latMax lonMin lonMax step radius : ℚ)
    (hc : -90 ≤ latMin ∧ latMin ≤ 90 ∧ -90 ≤ latMax ∧ latMax ≤ 90 ∧
      -180 ≤ lonMin ∧ lonMin ≤ 180 ∧ -180 ≤ lonMax ∧ lonMax ≤ 180)
    (ho : latMin < latMax ∧ lonMin < lonMax)
    (hstep : 0 < step)
    (hsmall : areaKm2 latMin latMax lonMin lonMax < 1) :
    (get_pharmacies_in_area ps s0 latMin latMax lonMin lonMax step radius).1.calls
      = (gridCenters latMin latMax lonMin lonMax (min step (1 / 200))).map
          (fun c => (c.1, c.2, min radius 500)) := by
  rw [area_eq_areaRun ps s0 latMin latMax lonMin lonMax step radius hc ho,
    adjStep_of_lt_one hsmall, adjRadius_of_lt_one hsmall,
    areaRun_spec ps s0 latMin latMax lonMin lonMax _ _
      (ne_of_gt (lt_min hstep (by norm_num)))]

/-- C9 witness: on the 0.008°-square box (estimated area below 1 km²),
a supplied step of 0.01 and radius of 1000 are replaced by 0.005 and
500. -/
theorem C9_small_area_policy_override_witness :
    ((0 : ℚ) < 1 / 100) ∧ areaKm2 0 (1 / 125) 0 (1 / 125) < 1 ∧
    (get_pharmacies_in_area psConst () 0 (1 / 125) 0 (1 / 125) (1 / 100) 1000).1.calls
      = (gridCenters 0 (1 / 125) 0 (1 / 125) (min (1 / 100) (1 / 200))).map
          (fun c => (c.1, c.2, min 1000 500)) :=
  ⟨by norm_num, areaKm2_small_lt_one,
   C9_small_area_policy_override psConst () 0 (1 / 125) 0 (1 / 125) (1 / 100) 1000
     (by norm_num) (by norm_num) (by norm_num) areaKm2_small_lt_one⟩

/-- C8 counterexample: permuting two places that share the identity key
`(name, latitude, longitude)` but differ in address changes which
record the deduplication retains, so the resulting set of places is not
permutation-invariant as claimed. -/
theorem C8_counterexample :
    [pA, pA2].Perm [pA2, pA] ∧
    pA2 ∈ dedupBy [] [pA2, pA] ∧ pA2 ∉ dedupBy [] [pA, pA2] := by
  have h1 : dedupBy [] [pA2, pA] = [pA2] := by
    simp [dedupBy, placeKey, pA, pA2]
  have h2 : dedupBy [] [pA, pA2] = [pA] := by
    simp [dedupBy, placeKey, pA, pA2]
  refine ⟨List.Perm.swap pA2 pA [], ?_, ?_⟩
  · rw [h1]; exact List.mem_singleton.mpr rfl
  · rw [h2]
    simp only [List.mem_singleton, pA, pA2, Place.mk.injEq]
    intro h
    exact absurd h.2.1 (by decide)

/-- C8 (amended): the deduplication step is order-independent at the
level of identity keys: for every list of places and every permutation
of it, the two deduplicated outputs carry exactly the same set of
`(name, latitude, longitude)` keys. -/
theorem C8_dedup_key_set_perm_invariant (l l' : List Place) (h : l.Perm l')
    (k : String × ℚ × ℚ) :
    k ∈ (dedupBy [] l).map placeKey ↔ k ∈ (dedupBy [] l').map placeKey := by
  rw [dedupBy_key_mem, dedupBy_key_mem, (h.map placeKey).mem_iff]

/-- C8 witness: the key-set invariance applied to a concrete swapped
pair. -/
theorem C8_dedup_key_set_perm_invariant_witness :
    [pA, pB].Perm [pB, pA] ∧
    (placeKey pA ∈ (dedupBy [] [pA, pB]).map placeKey ↔
      placeKey pA ∈ (dedupBy [] [pB, pA]).map placeKey) :=
  ⟨List.Perm.swap pB pA [], C8_dedup_key_set_perm_invariant [pA, pB] [pB, pA]
    (List.Perm.swap pB pA []) (placeKey pA)⟩

theorem arange_eval_one {a b s : ℚ} (h : ⌈(b - a) / s⌉ = 1) : arange a b s = [a] := by
  rw [arange, h, show ((1 : ℤ).toNat) = 1 from rfl, show List.range 1 = [0] from rfl]
  norm_num

theorem arange_eval_two {a b s : ℚ} (h : ⌈(b - a) / s⌉ = 2) : arange a b s = [a, a + s] := by
  rw [arange, h, show ((2 : ℤ).toNat) = 2 from rfl, show List.range 2 = [0, 1] from rfl]
  norm_num

/-- C6: the area-search result contains exactly one entry per distinct
`(name, latitude, longitude)` key of the accumulated per-cell results
(exact value equality): the output is a subsequence of the accumulation
(so first-seen order is preserved), its keys are pairwise distinct,
every accumulated key is represented, and each retained entry is the
first occurrence of its key in accumulation order. -/
theorem C6_dedup_first_seen {σ : Type}
    (ps : σ → ℚ → ℚ → ℚ → (List Place × ℕ) × σ) (s0 : σ)
    (latMin latMax lonMin lonMax step radius : ℚ)
    (hc : -90 ≤ latMin ∧ latMin ≤ 90 ∧ -90 ≤ latMax ∧ latMax ≤ 90 ∧
      -180 ≤ lonMin ∧ lonMin ≤ 180 ∧ -180 ≤ lonMax ∧ lonMax ≤ 180)
    (ho : latMin < latMax ∧ lonMin < lonMax)
    (hs : adjStep latMin latMax lonMin lonMax step ≠ 0) :
    (get_pharmacies_in_area ps s0 latMin latMax lonMin lonMax step radius).1.places.Sublist
      ((runOutputs ps (adjRadius latMin latMax lonMin lonMax radius) s0
          (gridCenters latMin latMax lonMin lonMax
            (adjStep latMin latMax lonMin lonMax step))).1.map Prod.fst).flatten ∧
    (((get_pharmacies_in_area ps s0 latMin latMax lonMin lonMax step radius).1.places).map
        placeKey).Nodup ∧
    (∀ p ∈ ((runOutputs ps (adjRadius latMin latMax lonMin lonMax radius) s0
          (gridCenters latMin latMax lonMin lonMax
            (adjStep latMin latMax lonMin lonMax step))).1.map Prod.fst).flatten,
      placeKey p ∈
        ((get_pharmacies_in_area ps s0 latMin latMax lonMin lonMax step radius).1.places).map
          placeKey) ∧
    (∀ p ∈ (get_pharmacies_in_area ps s0 latMin latMax lonMin lonMax step radius).1.places,
      ((runOutputs ps (adjRadius latMin latMax lonMin lonMax radius) s0
          (gridCenters latMin latMax lonMin lonMax
            (adjStep latMin latMax lonMin lonMax step))).1.map Prod.fst).flatten.find?
          (fun q => decide (placeKey q = placeKey p)) = some p) := by
  rw [area_eq_areaRun ps s0 latMin latMax lonMin lonMax step radius hc ho,
    areaRun_spec ps s0 latMin latMax lonMin lonMax _ _ hs]
  refine ⟨dedupBy_sublist [] _, dedupBy_keys_nodup [] _, ?_, fun p hp => dedupBy_find_first hp⟩
  intro p hp
  rw [dedupBy_key_mem]
  exact ⟨List.not_mem_nil _, List.mem_map_of_mem _ hp⟩

/-- C6 witness: the deduplication characterization instantiated on a
one-cell grid whose capability returns a duplicated key. -/
theorem C6_dedup_first_seen_witness :
    ((0 : ℚ) < 2 ∧ (0 : ℚ) < 2 ∧ adjStep 0 2 0 2 2 ≠ 0) ∧
    ((get_pharmacies_in_area psDup () 0 2 0 2 2 1000).1.places.Sublist
      ((runOutputs psDup (adjRadius 0 2 0 2 1000) ()
          (gridCenters 0 2 0 2 (adjStep 0 2 0 2 2))).1.map Prod.fst).flatten ∧
    (((get_pharmacies_in_area psDup () 0 2 0 2 2 1000).1.places).map placeKey).Nodup ∧
    (∀ p ∈ ((runOutputs psDup (adjRadius 0 2 0 2 1000) ()
          (gridCenters 0 2 0 2 (adjStep 0 2 0 2 2))).1.map Prod.fst).flatten,
      placeKey p ∈
        ((get_pharmacies_in_area psDup () 0 2 0 2 2 1000).1.places).map placeKey) ∧
    (∀ p ∈ (get_pharmacies_in_area psDup () 0 2 0 2 2 1000).1.places,
      ((runOutputs psDup (adjRadius 0 2 0 2 1000) ()
          (gridCenters 0 2 0 2 (adjStep 0 2 0 2 2))).1.map Prod.fst).flatten.find?
          (fun q => decide (placeKey q = placeKey p)) = some p)) :=
  ⟨⟨by norm_num, by norm_num, by rw [adjStep_of_one_le one_le_areaKm2_two_sq]; norm_num⟩,
   C6_dedup_first_seen psDup () 0 2 0 2 2 1000 (by norm_num) ⟨by norm_num, by norm_num⟩
     (by rw [adjStep_of_one_le one_le_areaKm2_two_sq]; norm_num)⟩

/-- C7 (amended): the returned `total_requests` equals the exact sum of
the per-cell request counts the capability returns along the cell loop
(pagination being folded into each per-cell count by the capability),
with one summand per processed cell - failed cells contribute the count
they return (the requests issued before their failure), and are not
omitted. -/
theorem C7_total_requests_sum {σ : Type}
    (ps : σ → ℚ → ℚ → ℚ → (List Place × ℕ) × σ) (s0 : σ)
    (latMin latMax lonMin lonMax step radius : ℚ)
    (hc : -90 ≤ latMin ∧ latMin ≤ 90 ∧ -90 ≤ latMax ∧ latMax ≤ 90 ∧
      -180 ≤ lonMin ∧ lonMin ≤ 180 ∧ -180 ≤ lonMax ∧ lonMax ≤ 180)
    (ho : latMin < latMax ∧ lonMin < lonMax)
    (hs : adjStep latMin latMax lonMin lonMax step ≠ 0) :
    (get_pharmacies_in_area ps s0 latMin latMax lonMin lonMax step radius).1.totalRequests
      = ((runOutputs ps (adjRadius latMin latMax lonMin lonMax radius) s0
          (gridCenters latMin latMax lonMin lonMax
            (adjStep latMin latMax lonMin lonMax step))).1.map Prod.snd).sum ∧
    (runOutputs ps (adjRadius latMin latMax lonMin lonMax radius) s0
        (gridCenters latMin latMax lonMin lonMax
          (adjStep latMin latMax lonMin lonMax step))).1.length
      = (gridCenters latMin latMax lonMin lonMax
          (adjStep latMin latMax lonMin lonMax step)).length := by
  rw [area_eq_areaRun ps s0 latMin latMax lonMin lonMax step radius hc ho,
    areaRun_spec ps s0 latMin latMax lonMin lonMax _ _ hs]
  exact ⟨rfl, runOutputs_length ps _ _ s0⟩

/-- C7 witness: the sum property instantiated on a one-cell grid whose
transport fails on the first request. -/
theorem C7_total_requests_sum_witness :
    ((0 : ℚ) < 2 ∧ (0 : ℚ) < 2 ∧ adjStep 0 2 0 2 2 ≠ 0) ∧
    ((get_pharmacies_in_area (subPS apiFail) ([] : Cache) 0 2 0 2 2 1000).1.totalRequests
      = ((runOutputs (subPS apiFail) (adjRadius 0 2 0 2 1000) ([] : Cache)
          (gridCenters 0 2 0 2 (adjStep 0 2 0 2 2))).1.map Prod.snd).sum ∧
    (runOutputs (subPS apiFail) (adjRadius 0 2 0 2 1000) ([] : Cache)
        (gridCenters 0 2 0 2 (adjStep 0 2 0 2 2))).1.length
      = (gridCenters 0 2 0 2 (adjStep 0 2 0 2 2)).length) :=
  ⟨⟨by norm_num, by norm_num, by rw [adjStep_of_one_le one_le_areaKm2_two_sq]; norm_num⟩,
   C7_total_requests_sum (subPS apiFail) ([] : Cache) 0 2 0 2 2 1000 (by norm_num)
     ⟨by norm_num, by norm_num⟩
     (by rw [adjStep_of_one_le one_le_areaKm2_two_sq]; norm_num)⟩

/-- C7 counterexample: a single-cell search whose transport fails with
an HTTP error status on the first request returns `total_requests = 1`
- the failed cell contributes 1, not 0 as the claim states, so the
total is not the sum of the successful cells' counts (which is 0). -/
theorem C7_counterexample :
    (get_pharmacies_in_area (subPS apiFail) ([] : Cache) 0 2 0 2 2 1000).1.totalRequests
      = 1 ∧ (1 : ℕ) ≠ 0 := by
  refine ⟨?_, by norm_num⟩
  rw [area_eq_areaRun (subPS apiFail) ([] : Cache) 0 2 0 2 2 1000 (by norm_num)
      ⟨by norm_num, by norm_num⟩,
    adjStep_of_one_le one_le_areaKm2_two_sq, adjRadius_of_one_le one_le_areaKm2_two_sq,
    areaRun_spec _ _ _ _ _ _ _ _ (by norm_num : (2 : ℚ) ≠ 0)]
  have hg : gridCenters 0 2 0 2 2 = [(0, 0)] := by
    rw [gridCenters, arange_eval_one (by rw [Int.ceil_eq_iff]; norm_num)]
    rfl
  rw [hg]
  norm_num [runOutputs, subPS, get_pharmacies_in_subarea, cacheFind, apiFail]

/-- C4 (amended): for every valid bounding box and positive step, the
number of point-search invocations equals
`ceil(Δlat / step') * ceil(Δlon / step')` where `step'` is the step the
service actually uses (the supplied step, except that it is capped at
0.005 when the estimated area is below 1 km²), and the invocations are
exactly the half-open lattice: centers `latMin + i*step'` (resp.
`lonMin + j*step'`) strictly below `latMax` (resp. `lonMax`), each
carried with the effective radius. -/
theorem C4_cell_count {σ : Type}
    (ps : σ → ℚ → ℚ → ℚ → (List Place × ℕ) × σ) (s0 : σ)
    (latMin latMax lonMin lonMax step radius : ℚ)
    (hc : -90 ≤ latMin ∧ latMin ≤ 90 ∧ -90 ≤ latMax ∧ latMax ≤ 90 ∧
      -180 ≤ lonMin ∧ lonMin ≤ 180 ∧ -180 ≤ lonMax ∧ lonMax ≤ 180)
    (ho : latMin < latMax ∧ lonMin < lonMax)
    (hstep : 0 < step) :
    (get_pharmacies_in_area ps s0 latMin latMax lonMin lonMax step radius).1.calls.length
      = (⌈(latMax - latMin) / adjStep latMin latMax lonMin lonMax step⌉).toNat *
        (⌈(lonMax - lonMin) / adjStep latMin latMax lonMin lonMax step⌉).toNat ∧
    (∀ la lo r,
      (la, lo, r) ∈ (get_pharmacies_in_area ps s0 latMin latMax lonMin lonMax
          step radius).1.calls ↔
        (r = adjRadius latMin latMax lonMin lonMax radius ∧
         (∃ i : ℕ, la = latMin + (i : ℚ) * adjStep latMin latMax lonMin lonMax step ∧
            la < latMax) ∧
         (∃ j : ℕ, lo = lonMin + (j : ℚ) * adjStep latMin latMax lonMin lonMax step ∧
            lo < lonMax))) := by
  have hs : 0 < adjStep latMin latMax lonMin lonMax step := adjStep_pos hstep
  rw [area_eq_areaRun ps s0 latMin latMax lonMin lonMax step radius hc ho,
    areaRun_spec ps s0 latMin latMax lonMin lonMax _ _ (ne_of_gt hs)]
  constructor
  · show ((gridCenters latMin latMax lonMin lonMax _).map _).length = _
    rw [List.length_map, gridCenters_length]
  · intro la lo r
    show (la, lo, r) ∈ (gridCenters latMin latMax lonMin lonMax _).map _ ↔ _
    rw [List.mem_map]
    constructor
    · rintro ⟨c, hcmem, heq⟩
      rw [Prod.ext_iff, Prod.ext_iff] at heq
      obtain ⟨hla, hlo, hr⟩ := heq
      subst hla; subst hlo; subst hr
      obtain ⟨hmla, hmlo⟩ := mem_gridCenters.mp hcmem
      obtain ⟨i, hi, hila⟩ := (mem_arange hs).mp hmla
      obtain ⟨j, hj, hjlo⟩ := (mem_arange hs).mp hmlo
      exact ⟨rfl, ⟨i, hi, hila⟩, ⟨j, hj, hjlo⟩⟩
    · rintro ⟨rfl, ⟨i, rfl, hila⟩, ⟨j, rfl, hjlo⟩⟩
      refine ⟨(latMin + (i : ℚ) * adjStep latMin latMax lonMin lonMax step,
        lonMin + (j : ℚ) * adjStep latMin latMax lonMin lonMax step), ?_, rfl⟩
      exact mem_gridCenters.mpr ⟨(mem_arange hs).mpr ⟨i, rfl, hila⟩,
        (mem_arange hs).mpr ⟨j, rfl, hjlo⟩⟩

/-- C4 witness: on the unit 2°×2° box with step 1, the lattice has
exactly `ceil(2/1) * ceil(2/1)` cells. -/
theorem C4_cell_count_witness :
    ((0 : ℚ) < 1) ∧
    ((get_pharmacies_in_area psConst () 0 2 0 2 1 1000).1.calls.length
      = (⌈((2 : ℚ) - 0) / adjStep 0 2 0 2 1⌉).toNat *
        (⌈((2 : ℚ) - 0) / adjStep 0 2 0 2 1⌉).toNat ∧
    (∀ la lo r,
      (la, lo, r) ∈ (get_pharmacies_in_area psConst () 0 2 0 2 1 1000).1.calls ↔
        (r = adjRadius 0 2 0 2 1000 ∧
         (∃ i : ℕ, la = 0 + (i : ℚ) * adjStep 0 2 0 2 1 ∧ la < 2) ∧
         (∃ j : ℕ, lo = 0 + (j : ℚ) * adjStep 0 2 0 2 1 ∧ lo < 2)))) :=
  ⟨by norm_num,
   C4_cell_count psConst () 0 2 0 2 1 1000 (by norm_num) ⟨by norm_num, by norm_num⟩
     (by norm_num)⟩

/-- C4 counterexample: on the 0.008°-square box (estimated area below
1 km²) with supplied step 0.01, the claimed formula gives 1 cell but
the service processes 4, because the grid is built with the silently
capped step 0.005. -/
theorem C4_counterexample :
    (get_pharmacies_in_area psConst () 0 (1 / 125) 0 (1 / 125) (1 / 100) 1000).1.calls.length
      = 4 ∧
    (⌈((1 / 125 : ℚ) - 0) / (1 / 100)⌉).toNat *
      (⌈((1 / 125 : ℚ) - 0) / (1 / 100)⌉).toNat = 1 ∧
    (4 : ℕ) ≠ 1 := by
  refine ⟨?_, ?_, by norm_num⟩
  · rw [area_eq_areaRun psConst () 0 (1 / 125) 0 (1 / 125) (1 / 100) 1000 (by norm_num)
        ⟨by norm_num, by norm_num⟩,
      adjStep_of_lt_one areaKm2_small_lt_one, adjRadius_of_lt_one areaKm2_small_lt_one,
      min_eq_right (by norm_num : (1 / 200 : ℚ) ≤ 1 / 100),
      areaRun_spec _ _ _ _ _ _ _ _ (by norm_num : (1 / 200 : ℚ) ≠ 0)]
    show ((gridCenters 0 (1 / 125) 0 (1 / 125) (1 / 200)).map _).length = 4
    rw [List.length_map, gridCenters_length,
      show ⌈((1 / 125 : ℚ) - 0) / (1 / 200)⌉ = 2 from by rw [Int.ceil_eq_iff]; norm_num]
    rfl
  · rw [show ⌈((1 / 125 : ℚ) - 0) / (1 / 100)⌉ = 1 from by rw [Int.ceil_eq_iff]; norm_num]
    rfl

/-- C2 (amended): the area search performs no policy validation and
signals no policy error.  A negative step yields an empty grid: zero
point-search invocations and an empty, error-free result
indistinguishable from a successful empty search; a zero step takes the
caught-exception path (empty result, zero invocations, generic error);
and a non-positive radius is not rejected: the grid is built normally
and every point-search invocation carries a non-positive radius. -/
theorem C2_policy_not_validated {σ : Type}
    (ps : σ → ℚ → ℚ → ℚ → (List Place × ℕ) × σ) (s0 : σ)
    (latMin latMax lonMin lonMax step radius : ℚ)
    (hc : -90 ≤ latMin ∧ latMin ≤ 90 ∧ -90 ≤ latMax ∧ latMax ≤ 90 ∧
      -180 ≤ lonMin ∧ lonMin ≤ 180 ∧ -180 ≤ lonMax ∧ lonMax ≤ 180)
    (ho : latMin < latMax ∧ lonMin < lonMax) :
    (step < 0 →
      (get_pharmacies_in_area ps s0 latMin latMax lonMin lonMax step radius).1.calls = [] ∧
      (get_pharmacies_in_area ps s0 latMin latMax lonMin lonMax step radius).1.error
        = none ∧
      (get_pharmacies_in_area ps s0 latMin latMax lonMin lonMax step radius).1.places
        = [] ∧
      (get_pharmacies_in_area ps s0 latMin latMax lonMin lonMax step radius).1.totalRequests
        = 0) ∧
    (step = 0 →
      (get_pharmacies_in_area ps s0 latMin latMax lonMin lonMax step radius).1.calls = [] ∧
      (get_pharmacies_in_area ps s0 latMin latMax lonMin lonMax step radius).1.error
        = some AreaError.stepZero) ∧
    (0 < step → radius ≤ 0 →
      (get_pharmacies_in_area ps s0 latMin latMax lonMin lonMax step radius).1.error
        = none ∧
      (get_pharmacies_in_area ps s0 latMin latMax lonMin lonMax step radius).1.calls ≠ [] ∧
      ∀ x ∈ (get_pharmacies_in_area ps s0 latMin latMax lonMin lonMax step radius).1.calls,
        x.2.2 ≤ 0) := by
  refine ⟨fun hneg => ?_, fun hzero => ?_, fun hpos hrad => ?_⟩
  · have hadj : adjStep latMin latMax lonMin lonMax step = step :=
      adjStep_of_le (le_trans hneg.le (by norm_num))
    rw [area_eq_areaRun ps s0 latMin latMax lonMin lonMax step radius hc ho, hadj,
      areaRun_spec ps s0 latMin latMax lonMin lonMax _ _ (ne_of_lt hneg)]
    have hnil : gridCenters latMin latMax lonMin lonMax step = [] := by
      rw [gridCenters, arange_nil_of_neg hneg ho.1]
      rfl
    rw [hnil]
    exact ⟨rfl, rfl, rfl, rfl⟩
  · subst hzero
    have hadj : adjStep latMin latMax lonMin lonMax 0 = 0 := adjStep_of_le (by norm_num)
    rw [area_eq_areaRun ps s0 latMin latMax lonMin lonMax 0 radius hc ho, hadj, areaRun,
      if_pos rfl]
    exact ⟨rfl, rfl⟩
  · have hs : 0 < adjStep latMin latMax lonMin lonMax step := adjStep_pos hpos
    rw [area_eq_areaRun ps s0 latMin latMax lonMin lonMax step radius hc ho,
      areaRun_spec ps s0 latMin latMax lonMin lonMax _ _ (ne_of_gt hs)]
    refine ⟨rfl, ?_, ?_⟩
    · show (gridCenters latMin latMax lonMin lonMax _).map _ ≠ []
      intro hnil
      have hlen := congrArg List.length hnil
      rw [List.length_map, gridCenters_length, List.length_nil] at hlen
      have hlat : 0 < (⌈(latMax - latMin) / adjStep latMin latMax lonMin lonMax step⌉).toNat := by
        have h1 : 0 < ⌈(latMax - latMin) / adjStep latMin latMax lonMin lonMax step⌉ :=
          Int.ceil_pos.mpr (div_pos (by linarith [ho.1]) hs)
        omega
      have hlon : 0 < (⌈(lonMax - lonMin) / adjStep latMin latMax lonMin lonMax step⌉).toNat := by
        have h1 : 0 < ⌈(lonMax - lonMin) / adjStep latMin latMax lonMin lonMax step⌉ :=
          Int.ceil_pos.mpr (div_pos (by linarith [ho.2]) hs)
        omega
      have hmul := Nat.mul_pos hlat hlon
      omega
    · intro x hx
      rcases List.mem_map.mp hx with ⟨c, _, rfl⟩
      exact le_trans adjRadius_le_self hrad

/-- C2 counterexample: with a valid box, positive step 1 and negative
radius -1, the search runs normally: 4 point-search invocations and no
error - no `InvalidPolicy` failure and a nonzero invocation count,
contradicting the claim for a non-positive radius. -/
theorem C2_counterexample :
    (get_pharmacies_in_area psConst () 0 2 0 2 1 (-1)).1.calls.length = 4 ∧
    (get_pharmacies_in_area psConst () 0 2 0 2 1 (-1)).1.error = none := by
  rw [area_eq_areaRun psConst () 0 2 0 2 1 (-1) (by norm_num) ⟨by norm_num, by norm_num⟩,
    adjStep_of_one_le one_le_areaKm2_two_sq, adjRadius_of_one_le one_le_areaKm2_two_sq,
    areaRun_spec _ _ _ _ _ _ _ _ (by norm_num : (1 : ℚ) ≠ 0)]
  constructor
  · show ((gridCenters 0 2 0 2 1).map _).length = 4
    rw [List.length_map, gridCenters_length,
      show ⌈((2 : ℚ) - 0) / 1⌉ = 2 from by rw [Int.ceil_eq_iff]; norm_num]
    rfl
  · rfl

/-- C2 witness: the three amended behaviours instantiated - a negative
step, a zero step, and a positive step with negative radius. -/
theorem C2_policy_not_validated_witness :
    ((-1 : ℚ) < 0 ∧
      (get_pharmacies_in_area psConst () 0 2 0 2 (-1) 1000).1.calls = [] ∧
      (get_pharmacies_in_area psConst () 0 2 0 2 (-1) 1000).1.error = none ∧
      (get_pharmacies_in_area psConst () 0 2 0 2 (-1) 1000).1.places = [] ∧
      (get_pharmacies_in_area psConst () 0 2 0 2 (-1) 1000).1.totalRequests = 0) ∧
    ((0 : ℚ) = 0 ∧
      (get_pharmacies_in_area psConst () 0 2 0 2 0 1000).1.calls = [] ∧
      (get_pharmacies_in_area psConst () 0 2 0 2 0 1000).1.error
        = some AreaError.stepZero) ∧
    ((0 : ℚ) < 2 ∧ (-5 : ℚ) ≤ 0 ∧
      (get_pharmacies_in_area psConst () 0 2 0 2 2 (-5)).1.error = none ∧
      (get_pharmacies_in_area psConst () 0 2 0 2 2 (-5)).1.calls ≠ [] ∧
      ∀ x ∈ (get_pharmacies_in_area psConst () 0 2 0 2 2 (-5)).1.calls, x.2.2 ≤ 0) := by
  refine ⟨⟨by norm_num, ?_⟩, ⟨rfl, ?_⟩, ⟨by norm_num, by norm_num, ?_⟩⟩
  · exact (C2_policy_not_validated psConst () 0 2 0 2 (-1) 1000 (by norm_num)
      ⟨by norm_num, by norm_num⟩).1 (by norm_num)
  · exact (C2_policy_not_validated psConst () 0 2 0 2 0 1000 (by norm_num)
      ⟨by norm_num, by norm_num⟩).2.1 rfl
  · exact (C2_policy_not_validated psConst () 0 2 0 2 2 (-5) (by norm_num)
      ⟨by norm_num, by norm_num⟩).2.2 (by norm_num) (by norm_num)

/-- C1 (amended): a cell whose transport fails is converted at the
per-cell boundary into the pair `([], n)` where `n` is the number of
requests already issued for that cell before the failure (zero only
when the very first request's transport raises; an HTTP error status or
a mid-pagination failure leaves the earlier requests counted), and
nothing is stored in the cache; and the area loop is never aborted: for
every capability behaviour, every grid cell is processed (the
invocation log is the full lattice) and the search returns without
error. -/
theorem C1_transport_failure_isolated :
    (∀ (api : ℚ → ℚ → ℚ → CellBehavior) (cache : Cache) (lat lon radius : ℚ)
        (pre : List (List RawPlace)) (counted : Bool),
        cacheFind cache (cacheKey lat lon radius) = none →
        api lat lon radius = .fail pre counted →
        get_pharmacies_in_subarea api cache lat lon radius
          = (([], pre.length + (if counted then 1 else 0)), cache)) ∧
    (∀ (σ : Type) (ps : σ → ℚ → ℚ → ℚ → (List Place × ℕ) × σ) (s0 : σ)
        (latMin latMax lonMin lonMax step radius : ℚ),
        (-90 ≤ latMin ∧ latMin ≤ 90 ∧ -90 ≤ latMax ∧ latMax ≤ 90 ∧
          -180 ≤ lonMin ∧ lonMin ≤ 180 ∧ -180 ≤ lonMax ∧ lonMax ≤ 180) →
        (latMin < latMax ∧ lonMin < lonMax) →
        adjStep latMin latMax lonMin lonMax step ≠ 0 →
        (get_pharmacies_in_area ps s0 latMin latMax lonMin lonMax step radius).1.calls
          = (gridCenters latMin latMax lonMin lonMax
              (adjStep latMin latMax lonMin lonMax step)).map
              (fun c => (c.1, c.2, adjRadius latMin latMax lonMin lonMax radius)) ∧
        (get_pharmacies_in_area ps s0 latMin latMax lonMin lonMax step radius).1.error
          = none) := by
  constructor
  · intro api cache lat lon radius pre counted h ha
    exact sub_miss_fail h ha
  · intro σ ps s0 latMin latMax lonMin lonMax step radius hc ho hs
    rw [area_eq_areaRun ps s0 latMin latMax lonMin lonMax step radius hc ho,
      areaRun_spec ps s0 latMin latMax lonMin lonMax _ _ hs]
    exact ⟨rfl, rfl⟩

/-- C1 witness: the failure conversion applied to a transport that
fails on the first request, and the full-lattice continuation applied
on a concrete valid box. -/
theorem C1_transport_failure_isolated_witness :
    (get_pharmacies_in_subarea apiFail ([] : Cache) 0 0 1000 = (([], 1), ([] : Cache))) ∧
    ((get_pharmacies_in_area psConst () 0 2 0 2 2 1000).1.calls
      = (gridCenters 0 2 0 2 (adjStep 0 2 0 2 2)).map
          (fun c => (c.1, c.2, adjRadius 0 2 0 2 1000)) ∧
     (get_pharmacies_in_area psConst () 0 2 0 2 2 1000).1.error = none) := by
  constructor
  · have h := C1_transport_failure_isolated.1 apiFail ([] : Cache) 0 0 1000 [] true rfl rfl
    simpa using h
  · exact C1_transport_failure_isolated.2 Unit psConst () 0 2 0 2 2 1000 (by norm_num)
      ⟨by norm_num, by norm_num⟩
      (by rw [adjStep_of_one_le one_le_areaKm2_two_sq]; norm_num)

/-- C1 counterexample: a two-cell search where one cell's transport
fails on the pagination request after one successful page: that cell
contributes 1 request (not 0), so the total is 2 while the claim
predicts 1 (the successful cell's count only). -/
theorem C1_counterexample :
    (get_pharmacies_in_area (subPS apiC1) ([] : Cache) 0 2 0 4 2 1000).1.totalRequests
      = 2 ∧
    get_pharmacies_in_subarea apiC1 ([] : Cache) 0 0 1000 = (([], 1), ([] : Cache)) ∧
    (2 : ℕ) ≠ 1 := by
  refine ⟨?_, ?_, by norm_num⟩
  · rw [area_eq_areaRun (subPS apiC1) ([] : Cache) 0 2 0 4 2 1000 (by norm_num)
        ⟨by norm_num, by norm_num⟩,
      adjStep_of_one_le one_le_areaKm2_two_four, adjRadius_of_one_le one_le_areaKm2_two_four,
      areaRun_spec _ _ _ _ _ _ _ _ (by norm_num : (2 : ℚ) ≠ 0)]
    have hg : gridCenters 0 2 0 4 2 = [(0, 0), (0, 2)] := by
      rw [gridCenters, arange_eval_one (by rw [Int.ceil_eq_iff]; norm_num),
        arange_eval_two (by rw [Int.ceil_eq_iff]; norm_num)]
      norm_num
    rw [hg]
    show ((runOutputs (subPS apiC1) 1000 ([] : Cache) [(0, 0), (0, 2)]).1.map Prod.snd).sum
      = 2
    norm_num [runOutputs, subPS, get_pharmacies_in_subarea, cacheFind, apiC1, parsePlace,
      dedupBy, placeKey, rpA, rpB]
  · have h := C1_transport_failure_isolated.1 apiC1 ([] : Cache) 0 0 1000 [[rpA]] false rfl
      (by norm_num [apiC1])
    simpa using h

/-- C10: every place returned by `get_pharmacies_in_subarea` - and
hence every place in an area-search result built on it - has latitude
in [-90, 90] and longitude in [-180, 180], provided every cached list
already satisfies the invariant: out-of-range API entries are skipped
during parsing, not included. -/
theorem C10_places_in_bounds (api : ℚ → ℚ → ℚ → CellBehavior) :
    (∀ (cache : Cache) (lat lon radius : ℚ), CacheBounded cache →
      ∀ p ∈ (get_pharmacies_in_subarea api cache lat lon radius).1.1, inBounds p) ∧
    (∀ (cache : Cache) (latMin latMax lonMin lonMax step radius : ℚ),
      CacheBounded cache →
      ∀ p ∈ (get_pharmacies_in_area (subPS api) cache
          latMin latMax lonMin lonMax step radius).1.places, inBounds p) := by
  constructor
  · intro cache lat lon radius h p hp
    exact (sub_inBounds h).1 p hp
  · intro cache latMin latMax lonMin lonMax step radius h p hp
    rw [get_pharmacies_in_area] at hp
    split at hp
    · exact absurd hp (List.not_mem_nil p)
    · split at hp
      · exact absurd hp (List.not_mem_nil p)
      · rw [areaRun] at hp
        split at hp
        · exact absurd hp (List.not_mem_nil p)
        · have hall := runCells_all (subPS api)
            (adjRadius latMin latMax lonMin lonMax radius)
            (gridCenters latMin latMax lonMin lonMax
              (adjStep latMin latMax lonMin lonMax step))
            ⟨[], [], 0, [], cache⟩
          have hp' : p ∈ (runCells (subPS api)
              (adjRadius latMin latMax lonMin lonMax radius)
              ⟨[], [], 0, [], cache⟩
              (gridCenters latMin latMax lonMin lonMax
                (adjStep latMin latMax lonMin lonMax step))).all := hp
          rw [hall] at hp'
          simp only [List.nil_append] at hp'
          have hacc := mem_of_mem_dedupBy hp'
          rw [List.mem_flatten] at hacc
          obtain ⟨l, hl, hpl⟩ := hacc
          rw [List.mem_map] at hl
          obtain ⟨o, ho, rfl⟩ := hl
          exact (runOutputs_inBounds h).1 o ho p hpl

/-- C10 witness: with an empty cache and a transport returning one
in-range and one out-of-range entry, the subarea result contains
exactly the in-range place. -/
theorem C10_places_in_bounds_witness :
    CacheBounded ([] : Cache) ∧
    (∀ p ∈ (get_pharmacies_in_subarea apiBad ([] : Cache) 0 0 1000).1.1, inBounds p) ∧
    (get_pharmacies_in_subarea apiBad ([] : Cache) 0 0 1000).1.1 = [pA] := by
  have hcb : CacheBounded ([] : Cache) := fun k v h => Option.noConfusion h
  refine ⟨hcb, (C10_places_in_bounds apiBad).1 ([] : Cache) 0 0 1000 hcb, ?_⟩
  norm_num [get_pharmacies_in_subarea, cacheFind, apiBad, parsePlace, dedupBy, placeKey,
    rpA, rpBad, pA]

/-- C3 (amended): the search core is deterministic given identical
inputs and identical starting cache state, and the place list is stable
under the cache carried across invocations, but the core is NOT
stateless: the per-user cache persists between calls, so re-running the
same search (with a capability whose every cell fetch succeeds)
returns the same deduplicated place list with `total_requests = 0`
(every cell is served from the cache) and leaves the cache unchanged -
the request count of a later invocation depends on state left by an
earlier one. -/
theorem C3_deterministic_but_cached (api : ℚ → ℚ → ℚ → CellBehavior) (c0 : Cache)
    (latMin latMax lonMin lonMax step radius : ℚ)
    (hc : -90 ≤ latMin ∧ latMin ≤ 90 ∧ -90 ≤ latMax ∧ latMax ≤ 90 ∧
      -180 ≤ lonMin ∧ lonMin ≤ 180 ∧ -180 ≤ lonMax ∧ lonMax ≤ 180)
    (ho : latMin < latMax ∧ lonMin < lonMax)
    (hs : adjStep latMin latMax lonMin lonMax step ≠ 0)
    (hok : ∀ la lo r, (api la lo r).succeeds = true) :
    (get_pharmacies_in_area (subPS api)
        (get_pharmacies_in_area (subPS api) c0 latMin latMax lonMin lonMax step radius).2
        latMin latMax lonMin lonMax step radius).1.places
      = (get_pharmacies_in_area (subPS api) c0
          latMin latMax lonMin lonMax step radius).1.places ∧
    (get_pharmacies_in_area (subPS api)
        (get_pharmacies_in_area (subPS api) c0 latMin latMax lonMin lonMax step radius).2
        latMin latMax lonMin lonMax step radius).1.totalRequests = 0 ∧
    (get_pharmacies_in_area (subPS api)
        (get_pharmacies_in_area (subPS api) c0 latMin latMax lonMin lonMax step radius).2
        latMin latMax lonMin lonMax step radius).2
      = (get_pharmacies_in_area (subPS api) c0 latMin latMax lonMin lonMax step radius).2 := by
  set s' := adjStep latMin latMax lonMin lonMax step with hs'
  set r' := adjRadius latMin latMax lonMin lonMax radius with hr'
  set cs := gridCenters latMin latMax lonMin lonMax s' with hcs
  have hrun : ∀ s0 : Cache,
      get_pharmacies_in_area (subPS api) s0 latMin latMax lonMin lonMax step radius
        = (⟨dedupBy [] ((runOutputs (subPS api) r' s0 cs).1.map Prod.fst).flatten,
            ((runOutputs (subPS api) r' s0 cs).1.map Prod.snd).sum,
            none,
            cs.map (fun c => (c.1, c.2, r'))⟩,
           (runOutputs (subPS api) r' s0 cs).2) := by
    intro s0
    rw [area_eq_areaRun (subPS api) s0 latMin latMax lonMin lonMax step radius hc ho,
      areaRun_spec (subPS api) s0 latMin latMax lonMin lonMax s' r' hs]
  have hcache1 :
      (get_pharmacies_in_area (subPS api) c0 latMin latMax lonMin lonMax step radius).2
        = (runOutputs (subPS api) r' c0 cs).2 := by
    rw [hrun c0]
  rw [hcache1, hrun ((runOutputs (subPS api) r' c0 cs).2), hrun c0,
    runOutputs_rerun hok cs c0]
  refine ⟨?_, ?_, rfl⟩
  · show dedupBy []
        ((((runOutputs (subPS api) r' c0 cs).1.map (fun o => (o.1, 0))).map Prod.fst).flatten)
      = dedupBy [] ((runOutputs (subPS api) r' c0 cs).1.map Prod.fst).flatten
    rw [List.map_map]
    rfl
  · show (((runOutputs (subPS api) r' c0 cs).1.map (fun o => (o.1, 0))).map Prod.snd).sum = 0
    rw [List.map_map]
    have : ∀ l : List (List Place × ℕ), (l.map (Prod.snd ∘ fun o => (o.1, 0))).sum = 0 := by
      intro l
      induction l with
      | nil => rfl
      | cons x l ih => simpa using ih
    exact this _

/-- C3 witness: the rerun property instantiated on a one-cell box with
an always-succeeding transport. -/
theorem C3_deterministic_but_cached_witness :
    (adjStep 0 2 0 2 2 ≠ 0 ∧ ∀ la lo r, (apiOk1 la lo r).succeeds = true) ∧
    ((get_pharmacies_in_area (subPS apiOk1)
        (get_pharmacies_in_area (subPS apiOk1) ([] : Cache) 0 2 0 2 2 1000).2
        0 2 0 2 2 1000).1.places
      = (get_pharmacies_in_area (subPS apiOk1) ([] : Cache) 0 2 0 2 2 1000).1.places ∧
    (get_pharmacies_in_area (subPS apiOk1)
        (get_pharmacies_in_area (subPS apiOk1) ([] : Cache) 0 2 0 2 2 1000).2
        0 2 0 2 2 1000).1.totalRequests = 0 ∧
    (get_pharmacies_in_area (subPS apiOk1)
        (get_pharmacies_in_area (subPS apiOk1) ([] : Cache) 0 2 0 2 2 1000).2
        0 2 0 2 2 1000).2
      = (get_pharmacies_in_area (subPS apiOk1) ([] : Cache) 0 2 0 2 2 1000).2) :=
  ⟨⟨by rw [adjStep_of_one_le one_le_areaKm2_two_sq]; norm_num, fun _ _ _ => rfl⟩,
   C3_deterministic_but_cached apiOk1 ([] : Cache) 0 2 0 2 2 1000 (by norm_num)
     ⟨by norm_num, by norm_num⟩
     (by rw [adjStep_of_one_le one_le_areaKm2_two_sq]; norm_num) (fun _ _ _ => rfl)⟩

/-- C3 counterexample: running the same one-cell search twice with an
identically behaving capability gives `total_requests = 1` the first
time and `0` the second time (cache hit): state carried by the core
from one invocation changes the outcome of a later one, so the two runs
do not return the same `total_requests`. -/
theorem C3_counterexample :
    (get_pharmacies_in_area (subPS apiOk1) ([] : Cache) 0 2 0 2 2 1000).1.totalRequests
      = 1 ∧
    (get_pharmacies_in_area (subPS apiOk1)
        (get_pharmacies_in_area (subPS apiOk1) ([] : Cache) 0 2 0 2 2 1000).2
        0 2 0 2 2 1000).1.totalRequests = 0 ∧
    (1 : ℕ) ≠ 0 := by
  have hg : gridCenters 0 2 0 2 2 = [(0, 0)] := by
    rw [gridCenters, arange_eval_one (by rw [Int.ceil_eq_iff]; norm_num)]
    rfl
  have h1 : get_pharmacies_in_area (subPS apiOk1) ([] : Cache) 0 2 0 2 2 1000
      = (⟨[pA], 1, none, [(0, 0, 1000)]⟩, [(cacheKey 0 0 1000, [pA])]) := by
    rw [area_eq_areaRun (subPS apiOk1) ([] : Cache) 0 2 0 2 2 1000 (by norm_num)
        ⟨by norm_num, by norm_num⟩,
      adjStep_of_one_le one_le_areaKm2_two_sq, adjRadius_of_one_le one_le_areaKm2_two_sq,
      areaRun_spec _ _ _ _ _ _ _ _ (by norm_num : (2 : ℚ) ≠ 0), hg]
    norm_num [runOutputs, subPS, get_pharmacies_in_subarea, cacheFind, apiOk1, parsePlace,
      dedupBy, placeKey, rpA, pA]
  have h2 : (get_pharmacies_in_area (subPS apiOk1) ([(cacheKey 0 0 1000, [pA])])
      0 2 0 2 2 1000).1.totalRequests = 0 := by
    rw [area_eq_areaRun (subPS apiOk1) ([(cacheKey 0 0 1000, [pA])]) 0 2 0 2 2 1000
        (by norm_num) ⟨by norm_num, by norm_num⟩,
      adjStep_of_one_le one_le_areaKm2_two_sq, adjRadius_of_one_le one_le_areaKm2_two_sq,
      areaRun_spec _ _ _ _ _ _ _ _ (by norm_num : (2 : ℚ) ≠ 0), hg]
    norm_num [runOutputs, subPS, get_pharmacies_in_subarea, cacheFind]
  rw [h1]
  exact ⟨rfl, h2, by norm_num⟩
